import Mathlib

/-!
# CRUD-IMG-S3: request handlers of `app.js` over an explicit datastore and object store

The program is an Express router whose handlers talk to two remote services:
a MySQL table `crudimg` and an S3 bucket.  The embedding makes both services
explicit state (`World`), records every remote call a handler issues and how it
settles (`Event`), and takes the outcome of the `n`-th remote call of a request
from an outcome function `ok : Nat → Bool` (`true` = the promise resolves,
`false` = it rejects).  `Date.now()` is the parameter `now`.

Record ids are natural numbers; a request id that matches no row is represented
by a number that no row carries.
-/

namespace CrudImg

/-! ## Data model -/

/-- The five text columns written by the forms (`req.body.nombre`, ...);
`none` is JavaScript `undefined`, stored as SQL `NULL`. -/
structure Fields where
  nombre : Option String
  descripcion : Option String
  cantidad : Option String
  marca : Option String
  precio : Option String
deriving DecidableEq, Repr

/-- One row of table `crudimg`; `imagen` is the nullable object key. -/
structure Row where
  id : Nat
  fields : Fields
  imagen : Option String
deriving DecidableEq, Repr

/-- The file parsed by `upload.single('imagen')`: `req.file`. -/
structure File where
  originalname : String
  buffer : List Nat
deriving DecidableEq, Repr

/-- The two remote services: the table, the bucket (key, body), and the next
auto-assigned id. -/
structure World where
  table : List Row
  bucket : List (String × List Nat)
  nextId : Nat
deriving DecidableEq, Repr

/-- Remote calls issued by the handlers. -/
inductive Call where
  /-- `SELECT imagen FROM crudimg WHERE id = ?` -/
  | selectImagen (id : Nat)
  /-- `SELECT * FROM crudimg WHERE id = ?` -/
  | selectRow (id : Nat)
  /-- `SELECT imagen FROM crudimg` -/
  | selectAllImagen
  /-- `INSERT INTO crudimg SET ?` -/
  | insert (f : Fields) (imagen : Option String)
  /-- `UPDATE crudimg SET ... , imagen = ? WHERE id = ?` -/
  | update (id : Nat) (f : Fields) (imagen : Option String)
  /-- `DELETE FROM crudimg WHERE id = ?` -/
  | deleteRow (id : Nat)
  /-- `DELETE FROM crudimg` -/
  | deleteAllRows
  /-- `s3.deleteObject({Bucket, Key})` -/
  | deleteObject (key : String)
  /-- `s3.upload({Bucket, Key, Body})` -/
  | uploadObject (key : String) (body : List Nat)
deriving DecidableEq, Repr

/-- A remote call is issued, and later settles (resolved = `true`). -/
inductive Event where
  | issued (c : Call)
  | settled (c : Call) (resolved : Bool)
deriving DecidableEq, Repr

/-- What the client receives. `unhandled` : the promise of the async handler
rejected outside every `try`, so the handler wrote no response. -/
inductive Response where
  | redirect (path : String)
  | render (view : String) (crudimg : Row) (imageUrl : String)
  | send (status : Nat) (text : String)
  | unhandled
deriving DecidableEq, Repr

/-- Result of running one handler. -/
structure Outcome where
  response : Response
  trace : List Event
  world : World
deriving DecidableEq, Repr

/-! ## JavaScript and service primitives -/

/-- The test `if (imagen)` on a value that is a string, `null` or `undefined`:
the key when the value is a non-empty string, nothing otherwise. -/
def presentKey : Option String → Option String
  | some k => if k = "" then none else some k
  | none => none

/-- The template literal with `Date.now()` and `req.file.originalname`
joined by a dash. -/
def objectKey (now : Nat) (originalname : String) : String :=
  toString now ++ "-" ++ originalname

/-- An awaited call: issued, then settled, before the handler continues. -/
def await (c : Call) (resolved : Bool) : List Event :=
  [Event.issued c, Event.settled c resolved]

/-- Rows selected by `WHERE id = ?`. -/
def rowsById (w : World) (id : Nat) : List Row :=
  w.table.filter (fun r => r.id = id)

def dbInsert (w : World) (f : Fields) (imagen : Option String) : World :=
  { w with table := w.table ++ [{ id := w.nextId, fields := f, imagen := imagen }],
           nextId := w.nextId + 1 }

def dbUpdate (w : World) (id : Nat) (f : Fields) (imagen : Option String) : World :=
  { w with table := (w.table.map
      (fun r => if r.id = id then { id := r.id, fields := f, imagen := imagen } else r)) }

def dbDelete (w : World) (id : Nat) : World :=
  { w with table := w.table.filter (fun r => r.id ≠ id) }

def dbDeleteAll (w : World) : World :=
  { w with table := [] }

def s3Delete (w : World) (key : String) : World :=
  { w with bucket := w.bucket.filter (fun o => o.1 ≠ key) }

def s3Upload (w : World) (key : String) (body : List Nat) : World :=
  { w with bucket := w.bucket.filter (fun o => o.1 ≠ key) ++ [(key, body)] }

/-! ## Handlers -/

def saveError : String := "Error al subir la imagen o guardar la información."
def deleteError : String := "Error al eliminar la imagen o el registro."
def editNotFound : String := "Registro no encontrado o sin imagen"
def editError : String := "Error al obtener el registro."
def updateError : String := "Error al actualizar el registro."
def deleteAllError : String := "Error al eliminar las imágenes o los registros."

/-- Handler of `POST /save`. -/
def save (ok : Nat → Bool) (now : Nat) (body : Fields) (file : Option File)
    (w : World) : Outcome :=
  match file with
  | none =>
    let q := Call.insert body none
    if ok 0 then ⟨Response.redirect "/", await q true, dbInsert w body none⟩
    else ⟨Response.send 500 saveError, await q false, w⟩
  | some f =>
    let s3Key := objectKey now f.originalname
    let up := Call.uploadObject s3Key f.buffer
    let q := Call.insert body (some s3Key)
    if ok 0 then
      let w1 := s3Upload w s3Key f.buffer
      if ok 1 then
        ⟨Response.redirect "/", await up true ++ await q true, dbInsert w1 body (some s3Key)⟩
      else ⟨Response.send 500 saveError, await up true ++ await q false, w1⟩
    else ⟨Response.send 500 saveError, await up false, w⟩

/-- Handler of `GET /delete/:id`. -/
def delete (ok : Nat → Bool) (id : Nat) (w : World) : Outcome :=
  let sel := Call.selectImagen id
  if ok 0 then
    match rowsById w id with
    | [] => ⟨Response.send 500 deleteError, await sel true, w⟩
    | r :: _ =>
      match presentKey r.imagen with
      | some key =>
        let del := Call.deleteObject key
        if ok 1 then
          let w1 := s3Delete w key
          if ok 2 then
            ⟨Response.redirect "/",
              await sel true ++ await del true ++ await (Call.deleteRow id) true,
              dbDelete w1 id⟩
          else
            ⟨Response.send 500 deleteError,
              await sel true ++ await del true ++ await (Call.deleteRow id) false, w1⟩
        else ⟨Response.send 500 deleteError, await sel true ++ await del false, w⟩
      | none =>
        if ok 1 then
          ⟨Response.redirect "/", await sel true ++ await (Call.deleteRow id) true,
            dbDelete w id⟩
        else
          ⟨Response.send 500 deleteError,
            await sel true ++ await (Call.deleteRow id) false, w⟩
  else ⟨Response.send 500 deleteError, await sel false, w⟩

/-- Handler of `GET /edit/:id`. -/
def edit (ok : Nat → Bool) (id : Nat) (w : World) : Outcome :=
  let sel := Call.selectRow id
  if ok 0 then
    match rowsById w id with
    | [] => ⟨Response.send 404 editNotFound, await sel true, w⟩
    | crudimg :: _ =>
      match presentKey crudimg.imagen with
      | some key => ⟨Response.render "edit" crudimg ("/images/" ++ key), await sel true, w⟩
      | none => ⟨Response.send 404 editNotFound, await sel true, w⟩
  else ⟨Response.send 500 editError, await sel false, w⟩

/-- The guarded block that ends `POST /update`: the `UPDATE` query, issued as
the `n`-th remote call after the events `pre`. -/
def updateRecord (ok : Nat → Bool) (n : Nat) (id : Nat) (body : Fields)
    (imagen : Option String) (pre : List Event) (w : World) : Outcome :=
  let q := Call.update id body imagen
  if ok n then ⟨Response.redirect "/", pre ++ await q true, dbUpdate w id body imagen⟩
  else ⟨Response.send 500 updateError, pre ++ await q false, w⟩

/-- Handler of `POST /update`; `imagen` is the form field `req.body.imagen`. -/
def update (ok : Nat → Bool) (now : Nat) (id : Nat) (body : Fields)
    (imagen : Option String) (file : Option File) (w : World) : Outcome :=
  match file with
  | none => updateRecord ok 0 id body imagen [] w
  | some f =>
    match presentKey imagen with
    | some old =>
      let del := Call.deleteObject old
      if ok 0 then
        let w1 := s3Delete w old
        let newKey := objectKey now f.originalname
        let up := Call.uploadObject newKey f.buffer
        if ok 1 then
          updateRecord ok 2 id body (some newKey) (await del true ++ await up true)
            (s3Upload w1 newKey f.buffer)
        else ⟨Response.unhandled, await del true ++ await up false, w1⟩
      else ⟨Response.unhandled, await del false, w⟩
    | none =>
      let newKey := objectKey now f.originalname
      let up := Call.uploadObject newKey f.buffer
      if ok 0 then
        updateRecord ok 1 id body (some newKey) (await up true) (s3Upload w newKey f.buffer)
      else ⟨Response.unhandled, await up false, w⟩

/-- Order in which concurrently pending promises settle: the `i`-th number of
`sched` is the position at which the corresponding element is put among the
ones after it.  Every result is a rearrangement of the input, and every
rearrangement is the result for some `sched`. -/
def settleOrder {α : Type} : List Nat → List α → List α
  | _, [] => []
  | [], a :: l => a :: settleOrder [] l
  | i :: sched, a :: l =>
    (settleOrder sched l).insertIdx (i % ((settleOrder sched l).length + 1)) a

/-- The object deletions of `GET /delete-all`, in row order, each with the
outcome of its call (the call for the `i`-th key is remote call `i + 1`). -/
def bulkDeletes (ok : Nat → Bool) (w : World) : List (String × Bool) :=
  let keys := w.table.filterMap (fun r => presentKey r.imagen)
  keys.zip ((List.range keys.length).map (fun i => ok (i + 1)))

/-- Handler of `GET /delete-all`.  `rows.map` issues every `deleteObject`
before any of them settles; `Promise.all` resolves once all have resolved and
rejects as soon as one rejects. -/
def deleteAll (ok : Nat → Bool) (sched : List Nat) (w : World) : Outcome :=
  let sel := Call.selectAllImagen
  if ok 0 then
    let ds := bulkDeletes ok w
    let issues := ds.map (fun d => Event.issued (Call.deleteObject d.1))
    let settles := (settleOrder sched ds).map
      (fun d => Event.settled (Call.deleteObject d.1) d.2)
    let gone := (ds.filter (fun d => d.2)).map (fun d => d.1)
    let w1 : World := { w with bucket := w.bucket.filter (fun o => o.1 ∉ gone) }
    if ds.all (fun d => d.2) then
      if ok (ds.length + 1) then
        ⟨Response.redirect "/",
          await sel true ++ issues ++ settles ++ await Call.deleteAllRows true,
          dbDeleteAll w1⟩
      else
        ⟨Response.send 500 deleteAllError,
          await sel true ++ issues ++ settles ++ await Call.deleteAllRows false, w1⟩
    else ⟨Response.send 500 deleteAllError, await sel true ++ issues ++ settles, w1⟩
  else ⟨Response.send 500 deleteAllError, await sel false, w⟩

/-! ## Observations on traces and states -/

/-- The calls issued, in order. -/
def issuedCalls (t : List Event) : List Call :=
  t.filterMap (fun e => match e with
    | Event.issued c => some c
    | Event.settled _ _ => none)

/-- Object-store calls. -/
def isStore : Call → Bool
  | Call.deleteObject _ => true
  | Call.uploadObject _ _ => true
  | _ => false

/-- Datastore writes. -/
def isWrite : Call → Bool
  | Call.insert _ _ => true
  | Call.update _ _ _ => true
  | Call.deleteRow _ => true
  | Call.deleteAllRows => true
  | _ => false

/-- The object-store calls issued, in order. -/
def storeCalls (t : List Event) : List Call := (issuedCalls t).filter isStore

/-- The datastore writes issued, in order. -/
def writeCalls (t : List Event) : List Call := (issuedCalls t).filter isWrite

/-- Some object-store call of the trace rejected. -/
def storeFailed (t : List Event) : Bool :=
  t.any (fun e => match e with
    | Event.settled c false => isStore c
    | _ => false)

/-- The image key stored for `id` (of the first row with that id). -/
def imagenOf (w : World) (id : Nat) : Option (Option String) :=
  (rowsById w id).head?.map (fun r => r.imagen)

/-- The invariant of the data model: every present image key names an object of
the bucket. -/
def keysStored (w : World) : Prop :=
  ∀ r ∈ w.table, ∀ k, presentKey r.imagen = some k → k ∈ w.bucket.map (fun o => o.1)

instance (w : World) : Decidable (keysStored w) := by
  unfold keysStored; infer_instance

/-- Keys whose object deletion has resolved, in the order of settling. -/
def resolvedDeletes (t : List Event) : List String :=
  t.filterMap (fun e => match e with
    | Event.settled (Call.deleteObject k) true => some k
    | _ => none)

/-- The present image keys of the table, in row order. -/
def presentKeys (w : World) : List String :=
  w.table.filterMap (fun r => presentKey r.imagen)

/-- Events of a `GET /delete-all` whose select succeeded, up to the settling of
the last object deletion. -/
def bulkTrace (ok : Nat → Bool) (sched : List Nat) (w : World) : List Event :=
  await Call.selectAllImagen true ++
    (bulkDeletes ok w).map (fun d => Event.issued (Call.deleteObject d.1)) ++
    (settleOrder sched (bulkDeletes ok w)).map
      (fun d => Event.settled (Call.deleteObject d.1) d.2)

/-! ## Sample data -/

/-- Every remote call succeeds. -/
def allOk : Nat → Bool := fun _ => true

/-- A form that leaves every text field out. -/
def noFields : Fields := ⟨none, none, none, none, none⟩

/-- One record whose image `a` is in the bucket. -/
def oneRow : World := ⟨[⟨1, noFields, some "a"⟩], [("a", [])], 2⟩

/-- Two records, each with its own image in the bucket. -/
def twoRows : World :=
  ⟨[⟨1, noFields, some "a"⟩, ⟨2, noFields, some "b"⟩], [("a", []), ("b", [])], 3⟩

/-- The first remote call succeeds and every later one fails. -/
def firstOnly : Nat → Bool := fun i => i == 0

/-- No remote call succeeds. -/
def noneOk : Nat → Bool := fun _ => false

/-- Two records that carry the same image key (two uploads of the same file
name in the same millisecond). -/
def sharedKey : World :=
  ⟨[⟨1, noFields, some "7-x.png"⟩, ⟨2, noFields, some "7-x.png"⟩], [("7-x.png", [])], 3⟩

/-- Number denoted by a string of decimal digits, most significant first. -/
def decimalValue (cs : List Char) : Nat :=
  cs.foldl (fun a c => 10 * a + (c.toNat - 48)) 0

/-! ## Object keys -/

theorem digitChar_decimal (k : Nat) (h : k < 10) :
    (Nat.digitChar k).toNat - 48 = k ∧ Nat.digitChar k ≠ '-' := by
  interval_cases k <;> decide

theorem decimalValue_snoc (pre : List Char) (c : Char) :
    decimalValue (pre ++ [c]) = 10 * decimalValue pre + (c.toNat - 48) := by
  simp [decimalValue, List.foldl_append]

theorem toDigitsCore_decimal :
    ∀ (fuel n : Nat) (ds : List Char), n < fuel →
      ∃ pre, Nat.toDigitsCore 10 fuel n ds = pre ++ ds ∧ '-' ∉ pre ∧ decimalValue pre = n := by
  intro fuel
  induction fuel with
  | zero => intro n ds h; omega
  | succ fuel ih =>
    intro n ds h
    obtain ⟨hv, hd⟩ := digitChar_decimal (n % 10) (Nat.mod_lt _ (by decide))
    unfold Nat.toDigitsCore
    by_cases h0 : n / 10 = 0
    · refine ⟨[Nat.digitChar (n % 10)], by simp [h0], by simpa using Ne.symm hd, ?_⟩
      simp only [decimalValue, List.foldl, hv]
      omega
    · obtain ⟨pre, hpre, hdash, hval⟩ :=
        ih (n / 10) (Nat.digitChar (n % 10) :: ds) (by omega)
      refine ⟨pre ++ [Nat.digitChar (n % 10)], by simp [h0, hpre], ?_, ?_⟩
      · simp only [List.mem_append, List.mem_singleton, not_or]
        exact ⟨hdash, Ne.symm hd⟩
      · rw [decimalValue_snoc, hval, hv]
        omega

theorem toString_decimal (n : Nat) :
    '-' ∉ (toString n).data ∧ decimalValue (toString n).data = n := by
  obtain ⟨pre, hpre, hdash, hval⟩ := toDigitsCore_decimal (n + 1) n [] (by omega)
  have : (toString n).data = pre := by
    show (Nat.repr n).data = pre
    simp [Nat.repr, Nat.toDigits, hpre, List.asString]
  rw [this]
  exact ⟨hdash, hval⟩

theorem split_at_first {α : Type} (a : α) :
    ∀ (l₁ l₂ r₁ r₂ : List α), a ∉ l₁ → a ∉ l₂ → l₁ ++ a :: r₁ = l₂ ++ a :: r₂ →
      l₁ = l₂ ∧ r₁ = r₂ := by
  intro l₁
  induction l₁ with
  | nil =>
    intro l₂ r₁ r₂ _ h₂ h
    cases l₂ with
    | nil => simpa using h
    | cons b l₂ =>
      simp only [List.nil_append, List.cons_append, List.cons.injEq] at h
      exact absurd (h.1 ▸ List.mem_cons_self _ _) h₂
  | cons b l₁ ih =>
    intro l₂ r₁ r₂ h₁ h₂ h
    cases l₂ with
    | nil =>
      simp only [List.nil_append, List.cons_append, List.cons.injEq] at h
      exact absurd (h.1 ▸ List.mem_cons_self _ _) h₁
    | cons c l₂ =>
      simp only [List.cons_append, List.cons.injEq] at h
      obtain ⟨hl, hr⟩ := ih l₂ r₁ r₂ (fun hm => h₁ (List.mem_cons_of_mem _ hm))
        (fun hm => h₂ (List.mem_cons_of_mem _ hm)) h.2
      exact ⟨by rw [h.1, hl], hr⟩

theorem objectKey_data (now : Nat) (name : String) :
    (objectKey now name).data = (toString now).data ++ '-' :: name.data := by
  simp [objectKey, String.data_append]

theorem objectKey_sample : objectKey 170000 "sample.png" = "170000-sample.png" := by
  decide

/-- C9: the object key built from a millisecond timestamp and an original file
name determines both: two keys are equal exactly when the timestamps are equal
and the file names are equal. -/
theorem objectKey_injective (t₁ t₂ : Nat) (f₁ f₂ : String) :
    objectKey t₁ f₁ = objectKey t₂ f₂ ↔ t₁ = t₂ ∧ f₁ = f₂ := by
  constructor
  · intro h
    have hd := congrArg String.data h
    rw [objectKey_data, objectKey_data] at hd
    obtain ⟨hl, hr⟩ := split_at_first '-' _ _ _ _
      (toString_decimal t₁).1 (toString_decimal t₂).1 hd
    constructor
    · rw [← (toString_decimal t₁).2, ← (toString_decimal t₂).2, hl]
    · exact String.ext hr
  · rintro ⟨rfl, rfl⟩
    rfl

/-! ## `POST /save` -/

/-- C1: when every remote call of a `POST /save` succeeds, the response is a
redirect to `/`; without a file no object-store call is issued and the row
inserted has `imagen = NULL`; with a file exactly one object-store call is
issued, an upload whose key is the decimal timestamp, a dash and the original
file name, and the row inserted carries that same key. -/
theorem save_contract (ok : Nat → Bool) (hok : ∀ i, ok i = true) (now : Nat)
    (body : Fields) (file : Option File) (w : World) :
    (save ok now body file w).response = Response.redirect "/" ∧
    match file with
    | none =>
      storeCalls (save ok now body file w).trace = [] ∧
      writeCalls (save ok now body file w).trace = [Call.insert body none] ∧
      (save ok now body file w).world.table =
        w.table ++ [{ id := w.nextId, fields := body, imagen := none }]
    | some f =>
      storeCalls (save ok now body file w).trace =
        [Call.uploadObject (toString now ++ "-" ++ f.originalname) f.buffer] ∧
      writeCalls (save ok now body file w).trace =
        [Call.insert body (some (toString now ++ "-" ++ f.originalname))] ∧
      (save ok now body file w).world.table =
        w.table ++ [{ id := w.nextId, fields := body,
                      imagen := some (toString now ++ "-" ++ f.originalname) }] := by
  cases file <;>
    simp [save, hok, storeCalls, writeCalls, issuedCalls, await, isStore, isWrite,
      dbInsert, s3Upload, objectKey]

/-! ## `GET /delete/:id` -/

/-- C4: when every remote call of a `GET /delete/:id` succeeds and `r` is the
record with that id: with a present image key the handler awaits the select,
then one object deletion for that key, then one row deletion for the id; with
no present key it awaits the select and the row deletion only.  In both cases
one row deletion for the id is the only datastore write and the response is a
redirect to `/`. -/
theorem delete_contract (ok : Nat → Bool) (hok : ∀ i, ok i = true) (id : Nat)
    (w : World) (r : Row) (hr : (rowsById w id).head? = some r) :
    (delete ok id w).response = Response.redirect "/" ∧
    writeCalls (delete ok id w).trace = [Call.deleteRow id] ∧
    (∀ key, presentKey r.imagen = some key →
      storeCalls (delete ok id w).trace = [Call.deleteObject key] ∧
      (delete ok id w).trace =
        await (Call.selectImagen id) true ++ await (Call.deleteObject key) true ++
          await (Call.deleteRow id) true) ∧
    (presentKey r.imagen = none →
      storeCalls (delete ok id w).trace = [] ∧
      (delete ok id w).trace =
        await (Call.selectImagen id) true ++ await (Call.deleteRow id) true) := by
  cases hrows : rowsById w id with
  | nil => simp [hrows] at hr
  | cons r' rest =>
    have hr' : r' = r := by simpa [hrows] using hr
    subst hr'
    cases hk : presentKey r'.imagen <;>
      simp [delete, hok, hrows, hk, storeCalls, writeCalls, issuedCalls, await, isStore,
        isWrite]

/-- C10: a `GET /delete/:id` whose id matches no record answers HTTP 500 with
the deletion message, issues no object-store call and no datastore write, and
leaves both services as they were. -/
theorem delete_missing (ok : Nat → Bool) (id : Nat) (w : World)
    (hr : ∀ r ∈ w.table, r.id ≠ id) :
    (delete ok id w).response =
      Response.send 500 "Error al eliminar la imagen o el registro." ∧
    storeCalls (delete ok id w).trace = [] ∧
    writeCalls (delete ok id w).trace = [] ∧
    (delete ok id w).world = w := by
  have hrows : rowsById w id = [] := by
    simp only [rowsById, List.filter_eq_nil_iff]
    intro r hmem
    simpa using hr r hmem
  cases h0 : ok 0 <;>
    simp [delete, h0, hrows, storeCalls, writeCalls, issuedCalls, await, isStore, isWrite,
      deleteError]

/-! ## `GET /edit/:id` -/

/-- C7: when the select of a `GET /edit/:id` succeeds, the response is the edit
form for record `r` with image URL `url` exactly when `r` is the record with
that id, its image key is present and `url` is `/images/` followed by the key;
when there is no such record or its key is not present the response is HTTP
404. -/
theorem edit_contract (ok : Nat → Bool) (h0 : ok 0 = true) (id : Nat) (w : World) :
    (∀ r url, (edit ok id w).response = Response.render "edit" r url ↔
      ∃ key, (rowsById w id).head? = some r ∧ presentKey r.imagen = some key ∧
        url = "/images/" ++ key) ∧
    ((¬ ∃ r key, (rowsById w id).head? = some r ∧ presentKey r.imagen = some key) →
      (edit ok id w).response = Response.send 404 "Registro no encontrado o sin imagen") := by
  cases hrows : rowsById w id with
  | nil => simp [edit, h0, hrows, editNotFound]
  | cons r' rest =>
    cases hk : presentKey r'.imagen with
    | none =>
      refine ⟨?_, ?_⟩
      · intro r url
        simp only [edit, h0, hrows, hk, List.head?_cons, Option.some.injEq, if_true]
        constructor
        · intro h; cases h
        · rintro ⟨key, rfl, hkey, _⟩
          rw [hk] at hkey; cases hkey
      · intro _
        simp [edit, h0, hrows, hk, editNotFound]
    | some key' =>
      refine ⟨?_, ?_⟩
      · intro r url
        simp only [edit, h0, hrows, hk, List.head?_cons, Option.some.injEq, if_true,
          Response.render.injEq, true_and]
        constructor
        · rintro ⟨rfl, rfl⟩
          exact ⟨key', rfl, hk, rfl⟩
        · rintro ⟨key, rfl, hkey, rfl⟩
          rw [hk] at hkey
          cases hkey
          exact ⟨rfl, rfl⟩
      · intro hne
        exact absurd ⟨r', key', by simp, hk⟩ hne

/-! ## `POST /update` -/

theorem rowsById_dbUpdate (w : World) (id : Nat) (f : Fields) (imagen : Option String) :
    rowsById (dbUpdate w id f imagen) id =
      (rowsById w id).map (fun r => { id := r.id, fields := f, imagen := imagen }) := by
  simp only [rowsById, dbUpdate]
  induction w.table with
  | nil => rfl
  | cons r t ih =>
    by_cases h : r.id = id
    · simp [List.filter_cons, h, ih]
    · simp [List.filter_cons, h, ih]

/-- C2, as the code has it: a `POST /update` without a new file issues no
object-store call; when its datastore update succeeds the image key of the
record with that id becomes the submitted `imagen` form field (so it is
unchanged when the form carries the stored key), and when the datastore update
fails both services are unchanged. -/
theorem update_without_file (ok : Nat → Bool) (now id : Nat) (body : Fields)
    (imagen : Option String) (w : World) :
    storeCalls (update ok now id body imagen none w).trace = [] ∧
    (∀ k, imagenOf w id = some k → ok 0 = true →
      imagenOf (update ok now id body imagen none w).world id = some imagen ∧
      (imagen = k → imagenOf (update ok now id body imagen none w).world id = some k)) ∧
    (ok 0 = false → (update ok now id body imagen none w).world = w) := by
  refine ⟨?_, ?_, ?_⟩
  · cases h0 : ok 0 <;>
      simp [update, updateRecord, h0, storeCalls, issuedCalls, await, isStore]
  · intro k hk h0
    have hnew : imagenOf (update ok now id body imagen none w).world id = some imagen := by
      simp only [update, updateRecord, h0, if_true, imagenOf, rowsById_dbUpdate]
      simp only [imagenOf] at hk
      cases hrows : rowsById w id with
      | nil => simp [hrows] at hk
      | cons r rest => simp
    exact ⟨hnew, fun h => h ▸ hnew⟩
  · intro h0
    simp [update, updateRecord, h0]

/-- C2 as stated fails: record 1 stores key `a`, the form of an update without
a file submits `b`; the update redirects and the stored key is `b`. -/
theorem update_without_file_changes_key :
    imagenOf oneRow 1 = some (some "a") ∧
    (update allOk 0 1 noFields (some "b") none oneRow).response = Response.redirect "/" ∧
    imagenOf (update allOk 0 1 noFields (some "b") none oneRow).world 1 = some (some "b") ∧
    imagenOf (update allOk 0 1 noFields (some "b") none oneRow).world 1 ≠ imagenOf oneRow 1 := by
  decide

theorem update_without_file_witness :
    imagenOf (update allOk 0 1 noFields (some "a") none oneRow).world 1 = some (some "a") :=
  ((update_without_file allOk 0 1 noFields (some "a") oneRow).2.1 (some "a")
    (by decide) (by decide)).2 rfl

/-- C6, as the code has it: when every remote call of a `POST /update` with a
new file succeeds, the handler awaits, in this order, the deletion of the key
submitted in the `imagen` form field (only when that field is a non-empty
string), the upload under the key made of the decimal timestamp, a dash and
the original file name, and the datastore update that writes that same key;
the update is the last call, the rows with the id carry the new key
afterwards, and the response is a redirect to `/`.  When the form carries the
key stored for the record, the key deleted is the old key of the record. -/
theorem update_with_file_order (ok : Nat → Bool) (hok : ∀ i, ok i = true) (now id : Nat)
    (body : Fields) (imagen : Option String) (f : File) (w : World) :
    (update ok now id body imagen (some f) w).trace =
      (match presentKey imagen with
        | some old => await (Call.deleteObject old) true
        | none => []) ++
      await (Call.uploadObject (toString now ++ "-" ++ f.originalname) f.buffer) true ++
      await (Call.update id body (some (toString now ++ "-" ++ f.originalname))) true ∧
    (update ok now id body imagen (some f) w).world.table =
      w.table.map (fun r => if r.id = id then
        { id := r.id, fields := body,
          imagen := some (toString now ++ "-" ++ f.originalname) } else r) ∧
    (update ok now id body imagen (some f) w).response = Response.redirect "/" ∧
    (∀ stored, imagenOf w id = some stored → imagen = stored →
      (update ok now id body imagen (some f) w).trace =
        (match presentKey stored with
          | some old => await (Call.deleteObject old) true
          | none => []) ++
        await (Call.uploadObject (toString now ++ "-" ++ f.originalname) f.buffer) true ++
        await (Call.update id body (some (toString now ++ "-" ++ f.originalname))) true) := by
  have h : (update ok now id body imagen (some f) w).trace =
      (match presentKey imagen with
        | some old => await (Call.deleteObject old) true
        | none => []) ++
      await (Call.uploadObject (toString now ++ "-" ++ f.originalname) f.buffer) true ++
      await (Call.update id body (some (toString now ++ "-" ++ f.originalname))) true := by
    cases hk : presentKey imagen <;>
      simp [update, updateRecord, hok, hk, objectKey]
  refine ⟨h, ?_, ?_, ?_⟩
  · cases hk : presentKey imagen <;>
      simp [update, updateRecord, hok, hk, objectKey, dbUpdate, s3Upload, s3Delete]
  · cases hk : presentKey imagen <;>
      simp [update, updateRecord, hok, hk]
  · intro stored _ heq
    rw [← heq]
    exact h

/-- C6 as stated fails.  Record 1 stores key `a`, which is in the bucket.  An
update with a file whose form leaves `imagen` empty redirects after an upload
and the datastore update only: no deletion of `a` is issued and `a` stays in
the bucket.  An update with a file whose form submits `zzz` deletes `zzz`, not
the old key `a`. -/
theorem update_with_file_ignores_stored_key :
    imagenOf oneRow 1 = some (some "a") ∧
    (update allOk 5 1 noFields (some "") (some ⟨"b.png", [1]⟩) oneRow).response =
      Response.redirect "/" ∧
    issuedCalls (update allOk 5 1 noFields (some "") (some ⟨"b.png", [1]⟩) oneRow).trace =
      [Call.uploadObject "5-b.png" [1], Call.update 1 noFields (some "5-b.png")] ∧
    (update allOk 5 1 noFields (some "") (some ⟨"b.png", [1]⟩) oneRow).world.bucket =
      [("a", []), ("5-b.png", [1])] ∧
    imagenOf (update allOk 5 1 noFields (some "") (some ⟨"b.png", [1]⟩) oneRow).world 1 =
      some (some "5-b.png") ∧
    issuedCalls (update allOk 5 1 noFields (some "zzz") (some ⟨"b.png", [1]⟩) oneRow).trace =
      [Call.deleteObject "zzz", Call.uploadObject "5-b.png" [1],
        Call.update 1 noFields (some "5-b.png")] := by
  decide

theorem update_with_file_order_witness :
    (update allOk 5 1 noFields (some "a") (some ⟨"b.png", [1]⟩) oneRow).trace =
      await (Call.deleteObject "a") true ++
      await (Call.uploadObject "5-b.png" [1]) true ++
      await (Call.update 1 noFields (some "5-b.png")) true ∧
    (update allOk 5 1 noFields (some "a") (some ⟨"b.png", [1]⟩) oneRow).response =
      Response.redirect "/" :=
  ⟨(update_with_file_order allOk (fun _ => rfl) 5 1 noFields (some "a") ⟨"b.png", [1]⟩
      oneRow).2.2.2 (some "a") (by decide) rfl,
   (update_with_file_order allOk (fun _ => rfl) 5 1 noFields (some "a") ⟨"b.png", [1]⟩
      oneRow).2.2.1⟩

theorem save_contract_witness :
    (save allOk 5 noFields (some ⟨"b.png", [1]⟩) oneRow).response = Response.redirect "/" :=
  (save_contract allOk (fun _ => rfl) 5 noFields (some ⟨"b.png", [1]⟩) oneRow).1

theorem delete_contract_witness :
    (delete allOk 1 oneRow).trace =
      await (Call.selectImagen 1) true ++ await (Call.deleteObject "a") true ++
        await (Call.deleteRow 1) true :=
  ((delete_contract allOk (fun _ => rfl) 1 oneRow ⟨1, noFields, some "a"⟩ (by decide)).2.2.1
    "a" (by decide)).2

theorem delete_missing_witness :
    (delete allOk 9 oneRow).response =
      Response.send 500 "Error al eliminar la imagen o el registro." :=
  (delete_missing allOk 9 oneRow (by decide)).1

theorem edit_contract_witness :
    (edit allOk 1 oneRow).response =
      Response.render "edit" ⟨1, noFields, some "a"⟩ "/images/a" :=
  ((edit_contract allOk rfl 1 oneRow).1 ⟨1, noFields, some "a"⟩ "/images/a").2
    ⟨"a", by decide, by decide, by decide⟩

/-! ## `GET /delete-all` -/

theorem settleOrder_perm {α : Type} :
    ∀ (l : List α) (sched : List Nat), (settleOrder sched l).Perm l := by
  intro l
  induction l with
  | nil => intro sched; cases sched <;> simp [settleOrder]
  | cons a l ih =>
    intro sched
    cases sched with
    | nil => simpa [settleOrder] using ih []
    | cons i sched =>
      simp only [settleOrder]
      refine (List.perm_insertIdx a _ ?_).trans ((ih sched).cons a)
      exact Nat.le_of_lt_succ (Nat.mod_lt _ (Nat.succ_pos _))

theorem bulkDeletes_keys (ok : Nat → Bool) (w : World) :
    (bulkDeletes ok w).map (fun d => d.1) = presentKeys w := by
  simp only [bulkDeletes, presentKeys]
  exact List.map_fst_zip _ _ (by simp)

theorem issuedCalls_append (s t : List Event) :
    issuedCalls (s ++ t) = issuedCalls s ++ issuedCalls t := by
  simp [issuedCalls, List.filterMap_append]

theorem issuedCalls_issues (ds : List (String × Bool)) :
    issuedCalls (ds.map (fun d => Event.issued (Call.deleteObject d.1))) =
      ds.map (fun d => Call.deleteObject d.1) := by
  induction ds with
  | nil => rfl
  | cons d ds ih => simpa [issuedCalls] using ih

theorem issuedCalls_settles (ds : List (String × Bool)) :
    issuedCalls (ds.map (fun d => Event.settled (Call.deleteObject d.1) d.2)) = [] := by
  induction ds with
  | nil => rfl
  | cons d ds ih => simp [issuedCalls]

theorem resolvedDeletes_append (s t : List Event) :
    resolvedDeletes (s ++ t) = resolvedDeletes s ++ resolvedDeletes t := by
  simp [resolvedDeletes, List.filterMap_append]

theorem resolvedDeletes_issues (ds : List (String × Bool)) :
    resolvedDeletes (ds.map (fun d => Event.issued (Call.deleteObject d.1))) = [] := by
  induction ds with
  | nil => rfl
  | cons d ds ih => simp [resolvedDeletes]

theorem resolvedDeletes_settles (ds : List (String × Bool)) (h : ∀ d ∈ ds, d.2 = true) :
    resolvedDeletes (ds.map (fun d => Event.settled (Call.deleteObject d.1) d.2)) =
      ds.map (fun d => d.1) := by
  induction ds with
  | nil => rfl
  | cons d ds ih =>
    have hd : d.2 = true := h d (List.mem_cons_self _ _)
    have := ih (fun e he => h e (List.mem_cons_of_mem _ he))
    simp only [resolvedDeletes] at this ⊢
    simp [hd, this]

theorem storeFailed_append (s t : List Event) :
    storeFailed (s ++ t) = (storeFailed s || storeFailed t) := by
  simp [storeFailed, List.any_append]

theorem storeFailed_issues (ds : List (String × Bool)) :
    storeFailed (ds.map (fun d => Event.issued (Call.deleteObject d.1))) = false := by
  induction ds with
  | nil => rfl
  | cons d ds ih => simp [storeFailed]

theorem storeFailed_settles (ds : List (String × Bool)) (h : ∀ d ∈ ds, d.2 = true) :
    storeFailed (ds.map (fun d => Event.settled (Call.deleteObject d.1) d.2)) = false := by
  induction ds with
  | nil => rfl
  | cons d ds ih =>
    have hd : d.2 = true := h d (List.mem_cons_self _ _)
    have := ih (fun e he => h e (List.mem_cons_of_mem _ he))
    simp only [storeFailed] at this ⊢
    simp [hd, this]

theorem issuedCalls_bulk (ok : Nat → Bool) (sched : List Nat) (w : World) :
    issuedCalls (bulkTrace ok sched w) =
      Call.selectAllImagen :: (presentKeys w).map Call.deleteObject := by
  rw [bulkTrace, issuedCalls_append, issuedCalls_append, issuedCalls_issues, issuedCalls_settles,
    ← bulkDeletes_keys ok w]
  simp [issuedCalls, await]

theorem filter_isStore_deletes (ks : List String) :
    (ks.map Call.deleteObject).filter isStore = ks.map Call.deleteObject := by
  induction ks with
  | nil => rfl
  | cons k ks ih => simp [isStore, ih]

theorem filter_isWrite_deletes (ks : List String) :
    (ks.map Call.deleteObject).filter isWrite = [] := by
  induction ks with
  | nil => rfl
  | cons k ks ih => simp [isWrite, ih]

theorem deleteAll_trace (ok : Nat → Bool) (h0 : ok 0 = true) (sched : List Nat) (w : World) :
    (deleteAll ok sched w).trace =
      bulkTrace ok sched w ++
        (if (bulkDeletes ok w).all (fun d => d.2) then
          await Call.deleteAllRows (ok ((bulkDeletes ok w).length + 1)) else []) := by
  by_cases hall : (bulkDeletes ok w).all (fun d => d.2) = true
  · cases hdb : ok ((bulkDeletes ok w).length + 1) <;>
      simp [deleteAll, h0, hall, hdb, bulkTrace]
  · simp only [deleteAll, h0, hall, bulkTrace, if_true] ; simp

theorem storeCalls_bulk (ok : Nat → Bool) (sched : List Nat) (w : World) :
    storeCalls (bulkTrace ok sched w) = (presentKeys w).map Call.deleteObject := by
  simp [storeCalls, issuedCalls_bulk, isStore, filter_isStore_deletes]

theorem writeCalls_bulk (ok : Nat → Bool) (sched : List Nat) (w : World) :
    writeCalls (bulkTrace ok sched w) = [] := by
  simp [writeCalls, issuedCalls_bulk, isWrite, filter_isWrite_deletes]

theorem deleteAllRows_not_mem_bulk (ok : Nat → Bool) (sched : List Nat) (w : World) :
    Event.issued Call.deleteAllRows ∉ bulkTrace ok sched w := by
  simp [bulkTrace, await]

theorem all_settleOrder (ok : Nat → Bool) (sched : List Nat) (w : World)
    (hall : (bulkDeletes ok w).all (fun d => d.2) = true) :
    ∀ d ∈ settleOrder sched (bulkDeletes ok w), d.2 = true := by
  intro d hd
  exact (List.all_eq_true.1 hall) d ((settleOrder_perm _ sched).mem_iff.1 hd)

theorem resolvedDeletes_bulk (ok : Nat → Bool) (sched : List Nat) (w : World)
    (hall : (bulkDeletes ok w).all (fun d => d.2) = true) :
    (resolvedDeletes (bulkTrace ok sched w)).Perm (presentKeys w) := by
  rw [bulkTrace, resolvedDeletes_append, resolvedDeletes_append, resolvedDeletes_issues,
    resolvedDeletes_settles _ (all_settleOrder ok sched w hall), ← bulkDeletes_keys ok w]
  simpa [resolvedDeletes, await] using (settleOrder_perm (bulkDeletes ok w) sched).map _

theorem storeFailed_bulk (ok : Nat → Bool) (sched : List Nat) (w : World)
    (hall : (bulkDeletes ok w).all (fun d => d.2) = true) :
    storeFailed (bulkTrace ok sched w) = false := by
  rw [bulkTrace, storeFailed_append, storeFailed_append, storeFailed_issues,
    storeFailed_settles _ (all_settleOrder ok sched w hall)]
  simp [storeFailed, await]

theorem bulkDeletes_length (ok : Nat → Bool) (w : World) :
    (bulkDeletes ok w).length = (presentKeys w).length := by
  rw [← bulkDeletes_keys ok w, List.length_map]

theorem bulkDeletes_all (ok : Nat → Bool) (w : World) :
    (bulkDeletes ok w).all (fun d => d.2) = true ↔
      ∀ i, i < (presentKeys w).length → ok (i + 1) = true := by
  have hsnd : (bulkDeletes ok w).map (fun d => d.2) =
      (List.range (presentKeys w).length).map (fun i => ok (i + 1)) := by
    simp only [bulkDeletes, presentKeys]
    exact List.map_snd_zip _ _ (by simp)
  have hall : (bulkDeletes ok w).all (fun d => d.2) =
      ((bulkDeletes ok w).map (fun d => d.2)).all id := by
    induction bulkDeletes ok w with
    | nil => rfl
    | cons d ds ih => simp [List.all_cons, ih]
  rw [hall, hsnd]
  simp [List.all_eq_true]

theorem deleteAll_done (ok : Nat → Bool) (h0 : ok 0 = true) (sched : List Nat) (w : World)
    (hall : (bulkDeletes ok w).all (fun d => d.2) = true)
    (hdb : ok ((presentKeys w).length + 1) = true) :
    (deleteAll ok sched w).response = Response.redirect "/" ∧
    (deleteAll ok sched w).world.table = [] := by
  rw [← bulkDeletes_length ok w] at hdb
  simp [deleteAll, h0, hall, hdb, dbDeleteAll]

/-- C5: a `GET /delete-all` whose select succeeds issues one object deletion
for each row with a present image key (the deletions issued are those keys, in
row order) and none for a row without one, whatever the outcomes of the
deletions and the order in which they settle.  When every one of those
deletions resolves, the deletion of all rows is issued: it is the only
datastore write, issued once as the last call, after every object deletion has
been issued and has resolved, and when it succeeds the table is empty and the
response is a redirect to `/`.  When one of the object deletions rejects, the
deletion of all rows is not issued.  So wherever the deletion of all rows
occurs in a trace, every object deletion has resolved before it. -/
theorem deleteAll_contract (ok : Nat → Bool) (h0 : ok 0 = true) (sched : List Nat)
    (w : World) :
    storeCalls (deleteAll ok sched w).trace = (presentKeys w).map Call.deleteObject ∧
    ((∀ i, i < (presentKeys w).length → ok (i + 1) = true) →
      writeCalls (deleteAll ok sched w).trace = [Call.deleteAllRows] ∧
      (∃ pre, (deleteAll ok sched w).trace =
          pre ++ await Call.deleteAllRows (ok ((presentKeys w).length + 1)) ∧
        Event.issued Call.deleteAllRows ∉ pre ∧
        storeCalls pre = (presentKeys w).map Call.deleteObject ∧
        (resolvedDeletes pre).Perm (presentKeys w)) ∧
      (ok ((presentKeys w).length + 1) = true →
        (deleteAll ok sched w).response = Response.redirect "/" ∧
        (deleteAll ok sched w).world.table = [])) ∧
    ((∃ i, i < (presentKeys w).length ∧ ok (i + 1) = false) →
      writeCalls (deleteAll ok sched w).trace = [] ∧
      Event.issued Call.deleteAllRows ∉ (deleteAll ok sched w).trace) ∧
    (Event.issued Call.deleteAllRows ∈ (deleteAll ok sched w).trace →
      ∃ pre b, (deleteAll ok sched w).trace = pre ++ await Call.deleteAllRows b ∧
        Event.issued Call.deleteAllRows ∉ pre ∧
        storeCalls pre = (presentKeys w).map Call.deleteObject ∧
        (resolvedDeletes pre).Perm (presentKeys w)) := by
  have htrace := deleteAll_trace ok h0 sched w
  by_cases hall : (bulkDeletes ok w).all (fun d => d.2) = true
  · rw [if_pos hall, bulkDeletes_length] at htrace
    have hstore : storeCalls (deleteAll ok sched w).trace =
        (presentKeys w).map Call.deleteObject := by
      have := storeCalls_bulk ok sched w
      rw [htrace]
      simp only [storeCalls, issuedCalls_append] at this ⊢
      rw [List.filter_append, this]
      simp [issuedCalls, await, isStore]
    have hwrite : writeCalls (deleteAll ok sched w).trace = [Call.deleteAllRows] := by
      have := writeCalls_bulk ok sched w
      rw [htrace]
      simp only [writeCalls, issuedCalls_append] at this ⊢
      rw [List.filter_append, this]
      simp [issuedCalls, await, isWrite]
    refine ⟨hstore, fun _ => ⟨hwrite, ⟨bulkTrace ok sched w, htrace,
      deleteAllRows_not_mem_bulk ok sched w, storeCalls_bulk ok sched w,
      resolvedDeletes_bulk ok sched w hall⟩, fun hdb => deleteAll_done ok h0 sched w hall hdb⟩,
      ?_, fun _ => ⟨bulkTrace ok sched w, _, htrace, deleteAllRows_not_mem_bulk ok sched w,
      storeCalls_bulk ok sched w, resolvedDeletes_bulk ok sched w hall⟩⟩
    rintro ⟨i, hi, hfalse⟩
    have := (bulkDeletes_all ok w).1 hall i hi
    rw [hfalse] at this
    cases this
  · rw [if_neg hall, List.append_nil] at htrace
    rw [htrace]
    refine ⟨storeCalls_bulk ok sched w, fun hres => absurd ((bulkDeletes_all ok w).2 hres) hall,
      fun _ => ⟨writeCalls_bulk ok sched w, deleteAllRows_not_mem_bulk ok sched w⟩,
      fun h => absurd h (deleteAllRows_not_mem_bulk ok sched w)⟩

theorem deleteAll_contract_witness :
    storeCalls (deleteAll allOk [1] sharedKey).trace =
      [Call.deleteObject "7-x.png", Call.deleteObject "7-x.png"] ∧
    writeCalls (deleteAll allOk [1] sharedKey).trace = [Call.deleteAllRows] ∧
    (∃ pre, (deleteAll allOk [1] sharedKey).trace = pre ++ await Call.deleteAllRows true ∧
      Event.issued Call.deleteAllRows ∉ pre ∧
      storeCalls pre = [Call.deleteObject "7-x.png", Call.deleteObject "7-x.png"] ∧
      (resolvedDeletes pre).Perm ["7-x.png", "7-x.png"]) ∧
    (deleteAll allOk [1] sharedKey).response = Response.redirect "/" ∧
    (deleteAll allOk [1] sharedKey).world.table = [] ∧
    (writeCalls (deleteAll firstOnly [1] sharedKey).trace = [] ∧
      Event.issued Call.deleteAllRows ∉ (deleteAll firstOnly [1] sharedKey).trace) :=
  ⟨(deleteAll_contract allOk rfl [1] sharedKey).1,
   ((deleteAll_contract allOk rfl [1] sharedKey).2.1 (fun _ _ => rfl)).1,
   ((deleteAll_contract allOk rfl [1] sharedKey).2.1 (fun _ _ => rfl)).2.1,
   (((deleteAll_contract allOk rfl [1] sharedKey).2.1 (fun _ _ => rfl)).2.2 rfl).1,
   (((deleteAll_contract allOk rfl [1] sharedKey).2.1 (fun _ _ => rfl)).2.2 rfl).2,
   (deleteAll_contract firstOnly rfl [1] sharedKey).2.2.1 ⟨0, by decide, by decide⟩⟩

/-! ## Failing object-store calls -/

theorem save_store_failure (ok : Nat → Bool) (now : Nat) (body : Fields)
    (file : Option File) (w : World)
    (h : storeFailed (save ok now body file w).trace = true) :
    writeCalls (save ok now body file w).trace = [] ∧
    (save ok now body file w).response = Response.send 500 saveError := by
  cases file with
  | none =>
    cases h0 : ok 0 <;> simp [save, h0, storeFailed, await, isStore] at h
  | some f =>
    cases h0 : ok 0 <;> cases h1 : ok 1 <;>
      simp [save, h0, h1, storeFailed, await, isStore] at h ⊢ <;>
      simp [writeCalls, issuedCalls, isWrite]

theorem delete_store_failure (ok : Nat → Bool) (id : Nat) (w : World)
    (h : storeFailed (delete ok id w).trace = true) :
    writeCalls (delete ok id w).trace = [] ∧
    (delete ok id w).response = Response.send 500 deleteError := by
  cases h0 : ok 0 with
  | false => simp [delete, h0, storeFailed, await, isStore] at h
  | true =>
    cases hrows : rowsById w id with
    | nil => simp [delete, h0, hrows, storeFailed, await, isStore] at h
    | cons r rest =>
      cases hk : presentKey r.imagen with
      | none =>
        cases h1 : ok 1 <;> simp [delete, h0, h1, hrows, hk, storeFailed, await, isStore] at h
      | some key =>
        cases h1 : ok 1 <;> cases h2 : ok 2 <;>
          simp [delete, h0, h1, h2, hrows, hk, storeFailed, await, isStore] at h ⊢ <;>
          simp [writeCalls, issuedCalls, isWrite]

theorem update_store_failure (ok : Nat → Bool) (now id : Nat) (body : Fields)
    (imagen : Option String) (file : Option File) (w : World)
    (h : storeFailed (update ok now id body imagen file w).trace = true) :
    writeCalls (update ok now id body imagen file w).trace = [] ∧
    (update ok now id body imagen file w).response = Response.unhandled := by
  cases file with
  | none =>
    cases h0 : ok 0 <;>
      simp [update, updateRecord, h0, storeFailed, await, isStore] at h
  | some f =>
    cases hk : presentKey imagen with
    | none =>
      cases h0 : ok 0 <;> cases h1 : ok 1 <;>
        simp [update, updateRecord, h0, h1, hk, storeFailed, await, isStore] at h ⊢ <;>
        simp [writeCalls, issuedCalls, isWrite]
    | some old =>
      cases h0 : ok 0 <;> cases h1 : ok 1 <;> cases h2 : ok 2 <;>
        simp [update, updateRecord, h0, h1, h2, hk, storeFailed, await, isStore] at h ⊢ <;>
        simp [writeCalls, issuedCalls, isWrite]

theorem deleteAll_store_failure (ok : Nat → Bool) (sched : List Nat) (w : World)
    (h : storeFailed (deleteAll ok sched w).trace = true) :
    writeCalls (deleteAll ok sched w).trace = [] ∧
    (deleteAll ok sched w).response = Response.send 500 deleteAllError := by
  cases h0 : ok 0 with
  | false => simp [deleteAll, h0, storeFailed, await, isStore] at h
  | true =>
    rw [deleteAll_trace ok h0] at h ⊢
    by_cases hall : (bulkDeletes ok w).all (fun d => d.2) = true
    · rw [if_pos hall, storeFailed_append, storeFailed_bulk ok sched w hall] at h
      cases hdb : ok ((bulkDeletes ok w).length + 1) <;>
        simp [storeFailed, await, isStore, hdb] at h
    · rw [if_neg hall, List.append_nil]
      exact ⟨writeCalls_bulk ok sched w, by simp [deleteAll, h0, hall]⟩

/-- C8: in each of save, update, delete and delete-all, when an object-store
call of the request fails the request issues no datastore write; save, delete
and delete-all then answer HTTP 500 with their own message, while in update
the rejection leaves the handler unhandled: no response is written, so the
message of the update handler is not sent. -/
theorem store_failure_no_write (ok : Nat → Bool) :
    (∀ now body file w, storeFailed (save ok now body file w).trace = true →
      writeCalls (save ok now body file w).trace = [] ∧
      (save ok now body file w).response =
        Response.send 500 "Error al subir la imagen o guardar la información.") ∧
    (∀ id w, storeFailed (delete ok id w).trace = true →
      writeCalls (delete ok id w).trace = [] ∧
      (delete ok id w).response =
        Response.send 500 "Error al eliminar la imagen o el registro.") ∧
    (∀ sched w, storeFailed (deleteAll ok sched w).trace = true →
      writeCalls (deleteAll ok sched w).trace = [] ∧
      (deleteAll ok sched w).response =
        Response.send 500 "Error al eliminar las imágenes o los registros.") ∧
    (∀ now id body imagen file w,
      storeFailed (update ok now id body imagen file w).trace = true →
      writeCalls (update ok now id body imagen file w).trace = [] ∧
      (update ok now id body imagen file w).response = Response.unhandled ∧
      (update ok now id body imagen file w).response ≠
        Response.send 500 "Error al actualizar el registro.") := by
  refine ⟨fun now body file w h => save_store_failure ok now body file w h,
    fun id w h => delete_store_failure ok id w h,
    fun sched w h => deleteAll_store_failure ok sched w h, ?_⟩
  intro now id body imagen file w h
  obtain ⟨hw, hr⟩ := update_store_failure ok now id body imagen file w h
  exact ⟨hw, hr, by rw [hr]; exact fun hc => Response.noConfusion hc⟩

theorem store_failure_no_write_witness :
    (writeCalls (save noneOk 5 noFields (some ⟨"b.png", [1]⟩) oneRow).trace = [] ∧
      (save noneOk 5 noFields (some ⟨"b.png", [1]⟩) oneRow).response =
        Response.send 500 "Error al subir la imagen o guardar la información.") ∧
    (writeCalls (delete firstOnly 1 oneRow).trace = [] ∧
      (delete firstOnly 1 oneRow).response =
        Response.send 500 "Error al eliminar la imagen o el registro.") ∧
    (writeCalls (deleteAll firstOnly [] oneRow).trace = [] ∧
      (deleteAll firstOnly [] oneRow).response =
        Response.send 500 "Error al eliminar las imágenes o los registros.") ∧
    (update noneOk 5 1 noFields (some "a") (some ⟨"b.png", [1]⟩) oneRow).response =
      Response.unhandled :=
  ⟨(store_failure_no_write noneOk).1 5 noFields (some ⟨"b.png", [1]⟩) oneRow (by decide),
   (store_failure_no_write firstOnly).2.1 1 oneRow (by decide),
   (store_failure_no_write firstOnly).2.2.1 [] oneRow (by decide),
   ((store_failure_no_write noneOk).2.2.2 5 1 noFields (some "a") (some ⟨"b.png", [1]⟩)
      oneRow (by decide)).2.1⟩

/-! ## The invariant of the data model -/

theorem mem_keys_s3Upload (w : World) (key : String) (body : List Nat) (k : String) :
    k ∈ (s3Upload w key body).bucket.map (fun o => o.1) ↔
      k = key ∨ k ∈ w.bucket.map (fun o => o.1) := by
  simp only [s3Upload, List.map_append, List.mem_append, List.mem_map, List.mem_filter,
    List.mem_singleton, decide_eq_true_eq]
  constructor
  · rintro (⟨o, ⟨ho, _⟩, rfl⟩ | ⟨o, rfl, rfl⟩)
    · exact Or.inr ⟨o, ho, rfl⟩
    · exact Or.inl rfl
  · rintro (rfl | ⟨o, ho, rfl⟩)
    · exact Or.inr ⟨(k, body), rfl, rfl⟩
    · by_cases hk : o.1 = key
      · exact Or.inr ⟨(key, body), rfl, hk.symm⟩
      · exact Or.inl ⟨o, ⟨ho, hk⟩, rfl⟩

theorem mem_keys_s3Delete (w : World) (key : String) (k : String) :
    k ∈ (s3Delete w key).bucket.map (fun o => o.1) ↔
      k ≠ key ∧ k ∈ w.bucket.map (fun o => o.1) := by
  simp only [s3Delete, List.mem_map, List.mem_filter, decide_eq_true_eq]
  constructor
  · rintro ⟨o, ⟨ho, hk⟩, rfl⟩
    exact ⟨hk, o, ho, rfl⟩
  · rintro ⟨hk, o, ho, rfl⟩
    exact ⟨o, ⟨ho, hk⟩, rfl⟩

theorem presentKey_some (key k : String) (h : presentKey (some key) = some k) : k = key := by
  simp only [presentKey] at h
  split at h
  · cases h
  · exact (Option.some.inj h).symm

theorem keysStored_save (ok : Nat → Bool) (now : Nat) (body : Fields) (file : Option File)
    (w : World) (hw : keysStored w)
    (hr : (save ok now body file w).response = Response.redirect "/") :
    keysStored (save ok now body file w).world := by
  cases file with
  | none =>
    cases h0 : ok 0 <;> simp [save, h0] at hr ⊢
    intro r hmem k hk
    simp only [dbInsert, List.mem_append, List.mem_singleton] at hmem
    rcases hmem with hmem | rfl
    · exact hw r hmem k hk
    · simp [presentKey] at hk
  | some f =>
    cases h0 : ok 0 <;> cases h1 : ok 1 <;> simp [save, h0, h1] at hr ⊢
    intro r hmem k hk
    simp only [dbInsert, List.mem_append, List.mem_singleton] at hmem
    show k ∈ (s3Upload w _ _).bucket.map (fun o => o.1)
    rw [mem_keys_s3Upload]
    rcases hmem with hmem | rfl
    · exact Or.inr (hw r hmem k hk)
    · exact Or.inl (presentKey_some _ _ hk)

theorem keysStored_deleteAll (ok : Nat → Bool) (sched : List Nat) (w : World)
    (hr : (deleteAll ok sched w).response = Response.redirect "/") :
    keysStored (deleteAll ok sched w).world := by
  have htable : (deleteAll ok sched w).world.table = [] := by
    cases h0 : ok 0
    · simp [deleteAll, h0] at hr
    · by_cases hall : (bulkDeletes ok w).all (fun d => d.2) = true
      · cases hdb : ok ((bulkDeletes ok w).length + 1)
        · simp [deleteAll, h0, hall, hdb] at hr
        · simp [deleteAll, h0, hall, hdb, dbDeleteAll]
      · simp [deleteAll, h0, hall] at hr
  intro r hmem
  rw [htable] at hmem
  cases hmem

theorem keysStored_delete (ok : Nat → Bool) (id : Nat) (w : World) (hw : keysStored w)
    (hr : (delete ok id w).response = Response.redirect "/")
    (hshare : ∀ r₀, (rowsById w id).head? = some r₀ → ∀ r ∈ w.table, r.id ≠ id →
      ∀ k, presentKey r.imagen = some k → presentKey r₀.imagen ≠ some k) :
    keysStored (delete ok id w).world := by
  cases h0 : ok 0 with
  | false => simp [delete, h0] at hr
  | true =>
    cases hrows : rowsById w id with
    | nil => simp [delete, h0, hrows] at hr
    | cons r₀ rest =>
      have hsh := hshare r₀ (by simp [hrows])
      cases hk₀ : presentKey r₀.imagen with
      | none =>
        cases h1 : ok 1 <;> simp [delete, h0, h1, hrows, hk₀] at hr ⊢
        intro r hmem k hk
        simp only [dbDelete, List.mem_filter] at hmem
        exact hw r hmem.1 k hk
      | some key =>
        cases h1 : ok 1 <;> cases h2 : ok 2 <;>
          simp [delete, h0, h1, h2, hrows, hk₀] at hr ⊢
        intro r hmem k hk
        simp only [dbDelete, s3Delete, List.mem_filter, decide_eq_true_eq] at hmem
        show k ∈ (s3Delete w key).bucket.map (fun o => o.1)
        rw [mem_keys_s3Delete]
        refine ⟨?_, hw r hmem.1 k hk⟩
        rintro rfl
        exact hsh r hmem.1 hmem.2 k hk hk₀

theorem keysStored_dbUpdate (w w₁ : World) (id : Nat) (body : Fields)
    (imagen : Option String) (htable : w₁.table = w.table)
    (hold : ∀ r ∈ w.table, r.id ≠ id → ∀ k, presentKey r.imagen = some k →
      k ∈ w₁.bucket.map (fun o => o.1))
    (hnew : (∃ r ∈ w.table, r.id = id) → ∀ k, presentKey imagen = some k →
      k ∈ w₁.bucket.map (fun o => o.1)) :
    keysStored (dbUpdate w₁ id body imagen) := by
  intro r hmem k hk
  simp only [dbUpdate, htable, List.mem_map] at hmem
  obtain ⟨r', hr', rfl⟩ := hmem
  show k ∈ w₁.bucket.map (fun o => o.1)
  by_cases hid : r'.id = id
  · simp only [hid, if_true] at hk
    exact hnew ⟨r', hr', hid⟩ k hk
  · simp only [hid, if_false] at hk
    exact hold r' hr' hid k hk

theorem keysStored_update_keep (ok : Nat → Bool) (now id : Nat) (body : Fields)
    (imagen : Option String) (w : World) (hw : keysStored w)
    (hr : (update ok now id body imagen none w).response = Response.redirect "/")
    (hkey : ∀ k, presentKey imagen = some k → k ∈ w.bucket.map (fun o => o.1)) :
    keysStored (update ok now id body imagen none w).world := by
  cases h0 : ok 0 <;> simp [update, updateRecord, h0] at hr ⊢
  exact keysStored_dbUpdate w w id body imagen rfl (fun r hmem _ k hk => hw r hmem k hk)
    (fun _ => hkey)

theorem keysStored_update_replace (ok : Nat → Bool) (now id : Nat) (body : Fields)
    (imagen : Option String) (f : File) (w : World) (hw : keysStored w)
    (hr : (update ok now id body imagen (some f) w).response = Response.redirect "/")
    (hshare : ∀ r ∈ w.table, r.id ≠ id → ∀ k, presentKey r.imagen = some k →
      presentKey imagen ≠ some k) :
    keysStored (update ok now id body imagen (some f) w).world := by
  cases hk₀ : presentKey imagen with
  | none =>
    cases h0 : ok 0 <;> cases h1 : ok 1 <;>
      simp [update, updateRecord, h0, h1, hk₀] at hr ⊢
    refine keysStored_dbUpdate w _ id body _ rfl ?_ ?_
    · intro r hmem _ k hk
      rw [mem_keys_s3Upload]
      exact Or.inr (hw r hmem k hk)
    · intro _ k hk
      rw [mem_keys_s3Upload]
      exact Or.inl (presentKey_some _ _ hk)
  | some old =>
    cases h0 : ok 0 <;> cases h1 : ok 1 <;> cases h2 : ok 2 <;>
      simp [update, updateRecord, h0, h1, h2, hk₀] at hr ⊢
    refine keysStored_dbUpdate w _ id body _ rfl ?_ ?_
    · intro r hmem hid k hk
      rw [mem_keys_s3Upload, mem_keys_s3Delete]
      refine Or.inr ⟨?_, hw r hmem k hk⟩
      rintro rfl
      exact hshare r hmem hid k hk hk₀
    · intro _ k hk
      rw [mem_keys_s3Upload]
      exact Or.inl (presentKey_some _ _ hk)

/-- C3, as the code has it: from a state in which every present image key
names an object of the bucket, a save or a delete-all that redirects leaves
such a state; so does a delete that redirects when no record with another id
carries the key of the record deleted, an update without a file that redirects
when the submitted `imagen` field is not present or names an object of the
bucket, and an update with a file that redirects when no record with another
id carries the submitted `imagen` key. -/
theorem keysStored_preserved (ok : Nat → Bool) (w : World) (hw : keysStored w) :
    (∀ now body file, (save ok now body file w).response = Response.redirect "/" →
      keysStored (save ok now body file w).world) ∧
    (∀ sched, (deleteAll ok sched w).response = Response.redirect "/" →
      keysStored (deleteAll ok sched w).world) ∧
    (∀ id, (delete ok id w).response = Response.redirect "/" →
      (∀ r₀, (rowsById w id).head? = some r₀ → ∀ r ∈ w.table, r.id ≠ id →
        ∀ k, presentKey r.imagen = some k → presentKey r₀.imagen ≠ some k) →
      keysStored (delete ok id w).world) ∧
    (∀ now id body imagen,
      (update ok now id body imagen none w).response = Response.redirect "/" →
      (∀ k, presentKey imagen = some k → k ∈ w.bucket.map (fun o => o.1)) →
      keysStored (update ok now id body imagen none w).world) ∧
    (∀ now id body imagen f,
      (update ok now id body imagen (some f) w).response = Response.redirect "/" →
      (∀ r ∈ w.table, r.id ≠ id → ∀ k, presentKey r.imagen = some k →
        presentKey imagen ≠ some k) →
      keysStored (update ok now id body imagen (some f) w).world) :=
  ⟨fun now body file hr => keysStored_save ok now body file w hw hr,
   fun sched hr => keysStored_deleteAll ok sched w hr,
   fun id hr hshare => keysStored_delete ok id w hw hr hshare,
   fun now id body imagen hr hkey => keysStored_update_keep ok now id body imagen w hw hr hkey,
   fun now id body imagen f hr hshare =>
     keysStored_update_replace ok now id body imagen f w hw hr hshare⟩

/-- C3 as stated fails.  Two records share one key and the first is deleted:
the request redirects and record 2 names an object that is gone.  A record
stores key `a` and an update without a file submits `b`: the request redirects
and the record names an object that was never stored.  An update of record 1
with a file submits the key `b` of record 2: the request redirects and record
2 names an object that is gone. -/
theorem keysStored_not_preserved :
    (keysStored sharedKey ∧
      (delete allOk 1 sharedKey).response = Response.redirect "/" ∧
      ¬ keysStored (delete allOk 1 sharedKey).world) ∧
    (keysStored oneRow ∧
      (update allOk 0 1 noFields (some "b") none oneRow).response = Response.redirect "/" ∧
      ¬ keysStored (update allOk 0 1 noFields (some "b") none oneRow).world) ∧
    (keysStored twoRows ∧
      (update allOk 5 1 noFields (some "b") (some ⟨"c.png", [1]⟩) twoRows).response =
        Response.redirect "/" ∧
      ¬ keysStored (update allOk 5 1 noFields (some "b") (some ⟨"c.png", [1]⟩) twoRows).world) := by
  decide

theorem keysStored_preserved_witness :
    keysStored oneRow ∧
    keysStored (save allOk 5 noFields (some ⟨"b.png", [1]⟩) oneRow).world ∧
    keysStored (deleteAll allOk [] oneRow).world ∧
    keysStored (delete allOk 1 oneRow).world ∧
    keysStored (update allOk 5 1 noFields (some "a") none oneRow).world ∧
    keysStored (update allOk 5 1 noFields (some "a") (some ⟨"b.png", [1]⟩) oneRow).world :=
  ⟨by decide,
   (keysStored_preserved allOk oneRow (by decide)).1 5 noFields (some ⟨"b.png", [1]⟩)
     (by decide),
   (keysStored_preserved allOk oneRow (by decide)).2.1 [] (by decide),
   (keysStored_preserved allOk oneRow (by decide)).2.2.1 1 (by decide) (by decide),
   (keysStored_preserved allOk oneRow (by decide)).2.2.2.1 5 1 noFields (some "a")
     (by decide) (by decide),
   (keysStored_preserved allOk oneRow (by decide)).2.2.2.2 5 1 noFields (some "a")
     ⟨"b.png", [1]⟩ (by decide) (by decide)⟩

end CrudImg
